import Mathlib

/-!
Shallow embedding of `src/bookstore_manager.py`, a single-user console
bookstore sales manager backed by SQLite.  The three tables (member, book,
sale) become lists of records; the AUTOINCREMENT primary key of `sale`
becomes an explicit `nextSid` counter (SQLite's `sqlite_sequence` value plus
one).  `add_sale` carries a `storageFails` flag modelling a `sqlite3.Error`
raised inside the insert/decrement transaction (the `except` branch rolls
back, so the state is returned unchanged there).  The interactive
`update_sale` / `delete_sale` take the operator-entered 1-based index into
the sale list ordered by sid ascending; `update_sale` returns `none` on the
uncaught-`TypeError` path (joined row missing), which crashes the process
without writing.
-/

namespace Bookstore

structure Member where
  mid : String
  mname : String
  mphone : String
  memail : Option String
deriving DecidableEq

structure Book where
  bid : String
  btitle : String
  bprice : Int
  bstock : Int
deriving DecidableEq

structure Sale where
  sid : Nat
  sdate : String
  mid : String
  bid : String
  sqty : Int
  sdiscount : Int
  stotal : Int
deriving DecidableEq

structure DB where
  members : List Member
  books : List Book
  sales : List Sale
  nextSid : Nat
deriving DecidableEq

/-- `SELECT * FROM member WHERE mid = ?` followed by `fetchone()`. -/
def findMember (db : DB) (mid : String) : Option Member :=
  db.members.find? (fun m => m.mid = mid)

/-- `SELECT * FROM book WHERE bid = ?` followed by `fetchone()`. -/
def findBook (db : DB) (bid : String) : Option Book :=
  db.books.find? (fun b => b.bid = bid)

/-- `SELECT ... FROM sale ... WHERE sid = ?` followed by `fetchone()`. -/
def findSale (db : DB) (sid : Nat) : Option Sale :=
  db.sales.find? (fun s => s.sid = sid)

/-- Python `sdate.count("-")`: number of dash characters in the string. -/
def dashCount (s : String) : Nat :=
  s.toList.count '-'

/-- Groups of up to three characters, taken from the front. -/
def chunk3 : List Char → List (List Char)
  | [] => []
  | [a] => [[a]]
  | [a, b] => [[a, b]]
  | a :: b :: c :: rest => [a, b, c] :: chunk3 rest

/-- Python `"{:,}".format(n)`: decimal rendering with a comma every three
digits, counted from the least significant digit. -/
def formatComma (n : Int) : String :=
  let ds := (toString n.natAbs).toList
  let groups := ((chunk3 ds.reverse).map List.reverse).reverse
  let body := String.mk (List.intercalate [','] groups)
  if n < 0 then "-" ++ body else body

def msgDateErr : String := "錯誤：日期格式錯誤，請使用 YYYY-MM-DD"

def msgMemberErr : String := "錯誤：會員編號無效"

def msgBookErr : String := "錯誤：書籍編號無效"

def msgQtyErr : String := "錯誤：數量必須為正整數"

def msgDiscountErr : String := "錯誤：折扣金額不能為負數"

def msgStockErr (bstock : Int) : String :=
  "錯誤：書籍庫存不足 (現有庫存: " ++ toString bstock ++ ")"

def msgDbErr : String := "資料庫錯誤，新增失敗"

def msgSaleOk (stotal : Int) : String :=
  "銷售記錄已新增！(銷售總額: " ++ formatComma stotal ++ ")"

def msgNumErr : String := "錯誤：請輸入有效的數字"

def msgUpdated (sid : Nat) (stotal : Int) : String :=
  "=> 銷售編號 " ++ toString sid ++ " 已更新！(銷售總額: " ++ formatComma stotal ++ ")"

def msgDeleted (sid : Nat) : String :=
  "=> 銷售編號 " ++ toString sid ++ " 已刪除"

/-- `add_sale(conn, sdate, mid, bid, sqty, sdiscount)`: the validation chain
followed by the insert/decrement transaction.  `storageFails` is true when a
`sqlite3.Error` is raised inside the transaction; the `except` branch rolls
back fully, so the state component is the input state there. -/
def add_sale (db : DB) (sdate mid bid : String) (sqty sdiscount : Int)
    (storageFails : Bool) : DB × Bool × String :=
  if sdate.length ≠ 10 ∨ dashCount sdate ≠ 2 then
    (db, false, msgDateErr)
  else
    match findMember db mid with
    | none => (db, false, msgMemberErr)
    | some _ =>
      match findBook db bid with
      | none => (db, false, msgBookErr)
      | some book =>
        if sqty ≤ 0 then (db, false, msgQtyErr)
        else if sdiscount < 0 then (db, false, msgDiscountErr)
        else if sqty > book.bstock then (db, false, msgStockErr book.bstock)
        else
          let stotal := book.bprice * sqty - sdiscount
          if storageFails then (db, false, msgDbErr)
          else
            ({ members := db.members
               books := db.books.map (fun b =>
                 if b.bid = bid then { b with bstock := b.bstock - sqty } else b)
               sales := db.sales ++
                 [{ sid := db.nextSid, sdate := sdate, mid := mid, bid := bid,
                    sqty := sqty, sdiscount := sdiscount, stotal := stotal }]
               nextSid := db.nextSid + 1 },
             true, msgSaleOk stotal)

def seedMembers : List Member :=
  [{ mid := "M001", mname := "Alice", mphone := "0912-345678",
     memail := some "alice@example.com" },
   { mid := "M002", mname := "Bob", mphone := "0923-456789",
     memail := some "bob@example.com" },
   { mid := "M003", mname := "Cathy", mphone := "0934-567890",
     memail := some "cathy@example.com" }]

def seedBooks : List Book :=
  [{ bid := "B001", btitle := "Python Programming", bprice := 600, bstock := 50 },
   { bid := "B002", btitle := "Data Science Basics", bprice := 800, bstock := 30 },
   { bid := "B003", btitle := "Machine Learning Guide", bprice := 1200, bstock := 20 }]

def seedSales : List Sale :=
  [{ sid := 1, sdate := "2024-01-15", mid := "M001", bid := "B001",
     sqty := 2, sdiscount := 100, stotal := 1100 },
   { sid := 2, sdate := "2024-01-16", mid := "M002", bid := "B002",
     sqty := 1, sdiscount := 50, stotal := 750 },
   { sid := 3, sdate := "2024-01-17", mid := "M001", bid := "B003",
     sqty := 3, sdiscount := 200, stotal := 3400 },
   { sid := 4, sdate := "2024-01-18", mid := "M003", bid := "B001",
     sqty := 1, sdiscount := 0, stotal := 600 }]

/-- `INSERT OR IGNORE INTO member VALUES (...)`. -/
def insertOrIgnoreMember (db : DB) (m : Member) : DB :=
  if db.members.any (fun x => x.mid = m.mid) then db
  else { db with members := db.members ++ [m] }

/-- `INSERT OR IGNORE INTO book VALUES (...)`. -/
def insertOrIgnoreBook (db : DB) (b : Book) : DB :=
  if db.books.any (fun x => x.bid = b.bid) then db
  else { db with books := db.books ++ [b] }

/-- `INSERT OR IGNORE INTO sale (sid, ...) VALUES (...)` with an explicit
sid: a successful insert bumps the AUTOINCREMENT sequence to at least the
inserted sid; an ignored duplicate leaves it alone. -/
def insertOrIgnoreSale (db : DB) (s : Sale) : DB :=
  if db.sales.any (fun x => x.sid = s.sid) then db
  else { db with sales := db.sales ++ [s], nextSid := max db.nextSid (s.sid + 1) }

/-- `initialize_db(conn)`: `CREATE TABLE IF NOT EXISTS` (a no-op on the list
model) followed by the seed `INSERT OR IGNORE` statements in script order. -/
def initialize_db (db : DB) : DB :=
  let db1 := seedMembers.foldl insertOrIgnoreMember db
  let db2 := seedBooks.foldl insertOrIgnoreBook db1
  seedSales.foldl insertOrIgnoreSale db2

/-- A database with empty tables and the AUTOINCREMENT sequence at its
initial value (the first automatically assigned sid is 1). -/
def emptyDB : DB :=
  { members := [], books := [], sales := [], nextSid := 1 }

/-- Insertion step of sorting the sale table by sid ascending. -/
def insertBySid (s : Sale) : List Sale → List Sale
  | [] => [s]
  | t :: ts => if s.sid ≤ t.sid then s :: t :: ts else t :: insertBySid s ts

/-- `SELECT ... FROM sale ... ORDER BY s.sid`. -/
def sortBySid (l : List Sale) : List Sale :=
  l.foldr insertBySid []

/-- `sid = int(sid_input); if sid < 1 or sid > len(sales): error;
sid_val = sales[sid - 1]["sid"]`: resolve a 1-based operator selection
against the displayed list. -/
def selectSale (sales : List Sale) (idx : Int) : Option Sale :=
  if idx < 1 ∨ (sales.length : Int) < idx then none
  else sales[(idx - 1).toNat]?

/-- `update_sale(conn)` with the operator interaction replaced by its two
parsed inputs: the 1-based selection `idx` and the new `discount`.  Result
`none` is the uncaught-`TypeError` path (the sale/book join returned no
row), which kills the process before any write. -/
def update_sale (db : DB) (idx : Int) (discount : Int) : Option (DB × String) :=
  match selectSale (sortBySid db.sales) idx with
  | none => some (db, msgNumErr)
  | some sel =>
    if discount < 0 then some (db, msgDiscountErr)
    else
      match findSale db sel.sid with
      | none => none
      | some sale =>
        match findBook db sale.bid with
        | none => none
        | some book =>
          let stotal := book.bprice * sale.sqty - discount
          some ({ db with sales := db.sales.map (fun t =>
                    if t.sid = sel.sid then
                      { t with sdiscount := discount, stotal := stotal }
                    else t) },
                msgUpdated sel.sid stotal)

/-- `delete_sale(conn)` with the operator interaction replaced by the parsed
1-based selection `idx`; an out-of-range selection re-prompts, leaving the
state unchanged. -/
def delete_sale (db : DB) (idx : Int) : DB × String :=
  match selectSale (sortBySid db.sales) idx with
  | none => (db, msgNumErr)
  | some sel =>
    ({ db with sales := db.sales.filter (fun t => t.sid ≠ sel.sid) },
     msgDeleted sel.sid)

/-- One public operation of the program, with the console inputs as data. -/
inductive Op where
  | sale (sdate mid bid : String) (sqty sdiscount : Int) (storageFails : Bool)
  | update (idx : Int) (discount : Int)
  | delete (idx : Int)
  | init
deriving DecidableEq

/-- State transition of a single operation. -/
def applyOp (db : DB) : Op → DB
  | .sale sdate mid bid sqty sdiscount fl =>
      (add_sale db sdate mid bid sqty sdiscount fl).1
  | .update idx d =>
      match update_sale db idx d with
      | none => db
      | some (db2, _) => db2
  | .delete idx => (delete_sale db idx).1
  | .init => initialize_db db

/-- Run a sequence of operations. -/
def exec (db : DB) : List Op → DB
  | [] => db
  | op :: ops => exec (applyOp db op) ops

/-- All states visited while running `ops` from `db`, including `db` itself
and the final state. -/
def traceStates (db : DB) : List Op → List DB
  | [] => [db]
  | op :: ops => db :: traceStates (applyOp db op) ops

/-- Every book row has non-negative stock. -/
def StocksNonneg (db : DB) : Prop :=
  ∀ b ∈ db.books, 0 ≤ b.bstock

/-- The book primary keys are pairwise distinct. -/
def BidsNodup (db : DB) : Prop :=
  (db.books.map Book.bid).Nodup

/-- Every sale sid is below the AUTOINCREMENT counter. -/
def SidInv (db : DB) : Prop :=
  ∀ s ∈ db.sales, s.sid < db.nextSid

instance : DecidablePred StocksNonneg := fun db =>
  inferInstanceAs (Decidable (∀ b ∈ db.books, 0 ≤ b.bstock))

instance : DecidablePred BidsNodup := fun db =>
  inferInstanceAs (Decidable ((db.books.map Book.bid).Nodup))

instance : DecidablePred SidInv := fun db =>
  inferInstanceAs (Decidable (∀ s ∈ db.sales, s.sid < db.nextSid))

/-! ### Helper lemmas about the messages -/

theorem msgStockErr_data_take (st : Int) :
    (msgStockErr st).data.take 6 = ['錯', '誤', '：', '書', '籍', '庫'] := by
  have h17 : ("錯誤：書籍庫存不足 (現有庫存: " : String).data.length = 17 := by decide
  show ((("錯誤：書籍庫存不足 (現有庫存: " : String) ++ toString st ++ ")").data).take 6 = _
  rw [String.data_append, String.data_append, List.append_assoc,
    List.take_append_of_le_length (by rw [h17]; omega)]
  decide

theorem msgStockErr_ne_const (st : Int) (c : String)
    (hc : c.data.take 6 ≠ ['錯', '誤', '：', '書', '籍', '庫']) :
    msgStockErr st ≠ c := by
  intro h
  exact hc (by rw [← h, msgStockErr_data_take])

/-! ### Helper lemmas about `add_sale` -/

theorem add_sale_date_fail (db : DB) (sdate mid bid : String) (q d : Int)
    (fl : Bool) (h : ¬(sdate.length = 10 ∧ dashCount sdate = 2)) :
    add_sale db sdate mid bid q d fl = (db, false, msgDateErr) := by
  unfold add_sale
  rw [if_pos (by omega)]

theorem add_sale_member_fail (db : DB) (sdate mid bid : String) (q d : Int)
    (fl : Bool) (hlen : sdate.length = 10) (hdash : dashCount sdate = 2)
    (hmem : findMember db mid = none) :
    add_sale db sdate mid bid q d fl = (db, false, msgMemberErr) := by
  unfold add_sale
  rw [if_neg (by omega)]
  rw [hmem]

theorem add_sale_book_fail (db : DB) (sdate mid bid : String) (q d : Int)
    (fl : Bool) (hlen : sdate.length = 10) (hdash : dashCount sdate = 2)
    (hmem : (findMember db mid).isSome) (hbook : findBook db bid = none) :
    add_sale db sdate mid bid q d fl = (db, false, msgBookErr) := by
  obtain ⟨m, hm⟩ := Option.isSome_iff_exists.mp hmem
  unfold add_sale
  rw [if_neg (by omega)]
  rw [hm, hbook]

theorem add_sale_qty_fail (db : DB) (sdate mid bid : String) (q d : Int)
    (fl : Bool) (book : Book)
    (hlen : sdate.length = 10) (hdash : dashCount sdate = 2)
    (hmem : (findMember db mid).isSome) (hbook : findBook db bid = some book)
    (hq : q ≤ 0) :
    add_sale db sdate mid bid q d fl = (db, false, msgQtyErr) := by
  obtain ⟨m, hm⟩ := Option.isSome_iff_exists.mp hmem
  unfold add_sale
  rw [if_neg (by omega)]
  simp only [hm, hbook]
  rw [if_pos hq]

theorem add_sale_discount_fail (db : DB) (sdate mid bid : String) (q d : Int)
    (fl : Bool) (book : Book)
    (hlen : sdate.length = 10) (hdash : dashCount sdate = 2)
    (hmem : (findMember db mid).isSome) (hbook : findBook db bid = some book)
    (hq : 0 < q) (hd : d < 0) :
    add_sale db sdate mid bid q d fl = (db, false, msgDiscountErr) := by
  obtain ⟨m, hm⟩ := Option.isSome_iff_exists.mp hmem
  unfold add_sale
  rw [if_neg (by omega)]
  simp only [hm, hbook]
  rw [if_neg (by omega), if_pos hd]

theorem add_sale_stock_fail (db : DB) (sdate mid bid : String) (q d : Int)
    (fl : Bool) (book : Book)
    (hlen : sdate.length = 10) (hdash : dashCount sdate = 2)
    (hmem : (findMember db mid).isSome) (hbook : findBook db bid = some book)
    (hq : 0 < q) (hd : 0 ≤ d) (hstock : book.bstock < q) :
    add_sale db sdate mid bid q d fl = (db, false, msgStockErr book.bstock) := by
  obtain ⟨m, hm⟩ := Option.isSome_iff_exists.mp hmem
  unfold add_sale
  rw [if_neg (by omega)]
  simp only [hm, hbook]
  rw [if_neg (by omega), if_neg (by omega), if_pos hstock]

theorem add_sale_success_eq (db : DB) (sdate mid bid : String) (q d : Int)
    (book : Book)
    (hlen : sdate.length = 10) (hdash : dashCount sdate = 2)
    (hmem : (findMember db mid).isSome) (hbook : findBook db bid = some book)
    (hq : 0 < q) (hd : 0 ≤ d) (hstock : q ≤ book.bstock) :
    add_sale db sdate mid bid q d false =
      ({ members := db.members
         books := db.books.map (fun b =>
           if b.bid = bid then { b with bstock := b.bstock - q } else b)
         sales := db.sales ++
           [{ sid := db.nextSid, sdate := sdate, mid := mid, bid := bid,
              sqty := q, sdiscount := d, stotal := book.bprice * q - d }]
         nextSid := db.nextSid + 1 },
       true, msgSaleOk (book.bprice * q - d)) := by
  obtain ⟨m, hm⟩ := Option.isSome_iff_exists.mp hmem
  unfold add_sale
  rw [if_neg (by omega)]
  simp only [hm, hbook]
  rw [if_neg (by omega), if_neg (by omega), if_neg (by omega)]
  rfl

theorem add_sale_storage_fail (db : DB) (sdate mid bid : String) (q d : Int)
    (book : Book)
    (hlen : sdate.length = 10) (hdash : dashCount sdate = 2)
    (hmem : (findMember db mid).isSome) (hbook : findBook db bid = some book)
    (hq : 0 < q) (hd : 0 ≤ d) (hstock : q ≤ book.bstock) :
    add_sale db sdate mid bid q d true = (db, false, msgDbErr) := by
  obtain ⟨m, hm⟩ := Option.isSome_iff_exists.mp hmem
  unfold add_sale
  rw [if_neg (by omega)]
  simp only [hm, hbook]
  rw [if_neg (by omega), if_neg (by omega), if_neg (by omega), if_pos trivial]

/-- Either `add_sale` leaves the state untouched, or it reports success. -/
theorem add_sale_cases (db : DB) (sdate mid bid : String) (q d : Int)
    (fl : Bool) :
    (add_sale db sdate mid bid q d fl).1 = db ∨
      (add_sale db sdate mid bid q d fl).2.1 = true := by
  unfold add_sale
  repeat' split
  all_goals simp

/-- Inversion of a successful `add_sale`: the validation facts it checked
and the exact shape of the committed state. -/
theorem add_sale_true_spec (db : DB) (sdate mid bid : String) (q d : Int)
    (fl : Bool) (h : (add_sale db sdate mid bid q d fl).2.1 = true) :
    fl = false ∧ sdate.length = 10 ∧ dashCount sdate = 2 ∧
    (findMember db mid).isSome ∧
    ∃ book : Book, findBook db bid = some book ∧ 0 < q ∧ 0 ≤ d ∧
      q ≤ book.bstock ∧
      (add_sale db sdate mid bid q d fl).1 =
        { members := db.members
          books := db.books.map (fun b =>
            if b.bid = bid then { b with bstock := b.bstock - q } else b)
          sales := db.sales ++
            [{ sid := db.nextSid, sdate := sdate, mid := mid, bid := bid,
               sqty := q, sdiscount := d, stotal := book.bprice * q - d }]
          nextSid := db.nextSid + 1 } := by
  unfold add_sale at h ⊢
  split at h
  · cases h
  next hdate =>
    split at h
    · cases h
    next m hm =>
      split at h
      · cases h
      next book hbook =>
        split at h
        · cases h
        next hq =>
          split at h
          · cases h
          next hd =>
            split at h
            · cases h
            next hstock =>
              split at h
              · cases h
              next hfl =>
                refine ⟨by simpa using hfl, by omega, by omega,
                  by simp [hm], book, hbook, by omega, by omega, by omega, ?_⟩
                rw [if_neg hq, if_neg hd, if_neg hstock, if_neg hfl, if_neg hdate]

/-! ### Helper lemmas about lookups over mutated tables -/

theorem find?_bid_map_decrement (l : List Book) (bid : String) (q : Int)
    (book : Book) (h : l.find? (fun b => b.bid = bid) = some book) :
    (l.map (fun b =>
      if b.bid = bid then { b with bstock := b.bstock - q } else b)).find?
        (fun b => b.bid = bid) =
      some { book with bstock := book.bstock - q } := by
  induction l with
  | nil => simp at h
  | cons a l ih =>
    by_cases ha : a.bid = bid
    · rw [List.find?_cons_of_pos _ (by simp [ha])] at h
      injection h with h
      subst h
      simp only [List.map_cons, if_pos ha]
      rw [List.find?_cons_of_pos _ (by simp [ha])]
    · rw [List.find?_cons_of_neg _ (by simp [ha])] at h
      simp only [List.map_cons, if_neg ha]
      rw [List.find?_cons_of_neg _ (by simp [ha])]
      exact ih h

theorem find?_bid_unique (l : List Book) (bid : String) (book b : Book)
    (hnd : (l.map Book.bid).Nodup)
    (hf : l.find? (fun x => x.bid = bid) = some book)
    (hb : b ∈ l) (hbid : b.bid = bid) : b = book := by
  have hmem := List.mem_of_find?_eq_some hf
  have hpb : book.bid = bid := by simpa using List.find?_some hf
  exact List.inj_on_of_nodup_map hnd hb hmem (by rw [hbid, hpb])

/-! ### Frame lemmas for the seeding steps -/

theorem foldl_insertOrIgnoreMember_frame (l : List Member) (db : DB) :
    (l.foldl insertOrIgnoreMember db).books = db.books ∧
    (l.foldl insertOrIgnoreMember db).sales = db.sales ∧
    (l.foldl insertOrIgnoreMember db).nextSid = db.nextSid := by
  induction l generalizing db with
  | nil => exact ⟨rfl, rfl, rfl⟩
  | cons a l ih =>
    have hstep : (insertOrIgnoreMember db a).books = db.books ∧
        (insertOrIgnoreMember db a).sales = db.sales ∧
        (insertOrIgnoreMember db a).nextSid = db.nextSid := by
      unfold insertOrIgnoreMember
      split <;> exact ⟨rfl, rfl, rfl⟩
    obtain ⟨h1, h2, h3⟩ := ih (insertOrIgnoreMember db a)
    exact ⟨h1.trans hstep.1, h2.trans hstep.2.1, h3.trans hstep.2.2⟩

theorem foldl_insertOrIgnoreBook_frame (l : List Book) (db : DB) :
    (l.foldl insertOrIgnoreBook db).members = db.members ∧
    (l.foldl insertOrIgnoreBook db).sales = db.sales ∧
    (l.foldl insertOrIgnoreBook db).nextSid = db.nextSid := by
  induction l generalizing db with
  | nil => exact ⟨rfl, rfl, rfl⟩
  | cons a l ih =>
    have hstep : (insertOrIgnoreBook db a).members = db.members ∧
        (insertOrIgnoreBook db a).sales = db.sales ∧
        (insertOrIgnoreBook db a).nextSid = db.nextSid := by
      unfold insertOrIgnoreBook
      split <;> exact ⟨rfl, rfl, rfl⟩
    obtain ⟨h1, h2, h3⟩ := ih (insertOrIgnoreBook db a)
    exact ⟨h1.trans hstep.1, h2.trans hstep.2.1, h3.trans hstep.2.2⟩

theorem foldl_insertOrIgnoreSale_frame (l : List Sale) (db : DB) :
    (l.foldl insertOrIgnoreSale db).members = db.members ∧
    (l.foldl insertOrIgnoreSale db).books = db.books := by
  induction l generalizing db with
  | nil => exact ⟨rfl, rfl⟩
  | cons a l ih =>
    have hstep : (insertOrIgnoreSale db a).members = db.members ∧
        (insertOrIgnoreSale db a).books = db.books := by
      unfold insertOrIgnoreSale
      split <;> exact ⟨rfl, rfl⟩
    obtain ⟨h1, h2⟩ := ih (insertOrIgnoreSale db a)
    exact ⟨h1.trans hstep.1, h2.trans hstep.2⟩

theorem nextSid_le_foldl_insertOrIgnoreSale (l : List Sale) (db : DB) :
    db.nextSid ≤ (l.foldl insertOrIgnoreSale db).nextSid := by
  induction l generalizing db with
  | nil => exact le_rfl
  | cons a l ih =>
    have hstep : db.nextSid ≤ (insertOrIgnoreSale db a).nextSid := by
      unfold insertOrIgnoreSale
      split
      · exact le_rfl
      · exact le_max_left _ _
    exact hstep.trans (ih (insertOrIgnoreSale db a))

theorem sidInv_insertOrIgnoreSale (db : DB) (a : Sale) (h : SidInv db) :
    SidInv (insertOrIgnoreSale db a) := by
  unfold insertOrIgnoreSale
  split
  · exact h
  · intro s hs
    simp only [List.mem_append, List.mem_singleton] at hs
    rcases hs with hs | rfl
    · have := h s hs
      show s.sid < max db.nextSid (a.sid + 1)
      omega
    · show s.sid < max db.nextSid (s.sid + 1)
      omega

theorem sidInv_foldl_insertOrIgnoreSale (l : List Sale) (db : DB)
    (h : SidInv db) : SidInv (l.foldl insertOrIgnoreSale db) := by
  induction l generalizing db with
  | nil => exact h
  | cons a l ih => exact ih _ (sidInv_insertOrIgnoreSale db a h)

theorem stocksNonneg_insertOrIgnoreBook (db : DB) (a : Book)
    (ha : 0 ≤ a.bstock) (h : StocksNonneg db) :
    StocksNonneg (insertOrIgnoreBook db a) := by
  unfold insertOrIgnoreBook
  split
  · exact h
  · intro b hb
    simp only [List.mem_append, List.mem_singleton] at hb
    rcases hb with hb | rfl
    · exact h b hb
    · exact ha

theorem bidsNodup_insertOrIgnoreBook (db : DB) (a : Book)
    (h : BidsNodup db) : BidsNodup (insertOrIgnoreBook db a) := by
  unfold insertOrIgnoreBook
  split
  · exact h
  next hany =>
    show (List.map Book.bid (db.books ++ [a])).Nodup
    rw [List.map_append, List.nodup_append]
    refine ⟨h, by simp, ?_⟩
    intro x hx hx2
    simp only [List.map_cons, List.map_nil, List.mem_singleton] at hx2
    subst hx2
    obtain ⟨b, hb, hbid⟩ := List.mem_map.mp hx
    exact hany (by
      rw [List.any_eq_true]
      exact ⟨b, hb, by simp [hbid]⟩)

theorem stocksNonneg_foldl_insertOrIgnoreBook (l : List Book) (db : DB)
    (hl : ∀ b ∈ l, 0 ≤ b.bstock) (h : StocksNonneg db) :
    StocksNonneg (l.foldl insertOrIgnoreBook db) := by
  induction l generalizing db with
  | nil => exact h
  | cons a l ih =>
    exact ih _ (fun b hb => hl b (List.mem_cons_of_mem _ hb))
      (stocksNonneg_insertOrIgnoreBook db a (hl a (List.mem_cons_self a l)) h)

theorem bidsNodup_foldl_insertOrIgnoreBook (l : List Book) (db : DB)
    (h : BidsNodup db) : BidsNodup (l.foldl insertOrIgnoreBook db) := by
  induction l generalizing db with
  | nil => exact h
  | cons a l ih => exact ih _ (bidsNodup_insertOrIgnoreBook db a h)

/-! ### Shapes of `update_sale` and `delete_sale` results -/

theorem update_sale_shape (db : DB) (idx d : Int) :
    (∃ msg, update_sale db idx d = some (db, msg)) ∨
    update_sale db idx d = none ∨
    ∃ sid2 : Nat, ∃ t : Int, ∃ msg,
      update_sale db idx d = some
        ({ db with sales := db.sales.map (fun s =>
            if s.sid = sid2 then { s with sdiscount := d, stotal := t } else s) },
         msg) := by
  unfold update_sale
  repeat' split
  all_goals first
    | exact Or.inl ⟨_, rfl⟩
    | exact Or.inr (Or.inl rfl)
    | exact Or.inr (Or.inr ⟨_, _, _, rfl⟩)

theorem delete_sale_shape (db : DB) (idx : Int) :
    (∃ msg, delete_sale db idx = (db, msg)) ∨
    ∃ sid2 : Nat, ∃ msg,
      delete_sale db idx =
        ({ db with sales := db.sales.filter (fun t => t.sid ≠ sid2) }, msg) := by
  unfold delete_sale
  repeat' split
  all_goals first
    | exact Or.inl ⟨_, rfl⟩
    | exact Or.inr ⟨_, _, rfl⟩

theorem applyOp_update_shape (db : DB) (idx d : Int) :
    applyOp db (.update idx d) = db ∨ ∃ sid2 : Nat, ∃ t : Int,
      applyOp db (.update idx d) = { db with sales := db.sales.map (fun s =>
        if s.sid = sid2 then { s with sdiscount := d, stotal := t } else s) } := by
  rcases update_sale_shape db idx d with ⟨msg, h⟩ | h | ⟨sid2, t, msg, h⟩
  · left
    simp only [applyOp, h]
  · left
    simp only [applyOp, h]
  · right
    refine ⟨sid2, t, ?_⟩
    simp only [applyOp, h]

theorem applyOp_delete_shape (db : DB) (idx : Int) :
    applyOp db (.delete idx) = db ∨ ∃ sid2 : Nat,
      applyOp db (.delete idx) =
        { db with sales := db.sales.filter (fun t => t.sid ≠ sid2) } := by
  rcases delete_sale_shape db idx with ⟨msg, h⟩ | ⟨sid2, msg, h⟩
  · left
    simp only [applyOp, h]
  · right
    refine ⟨sid2, ?_⟩
    simp only [applyOp, h]

/-! ### Preservation of the invariants by every operation -/

theorem stocksNonneg_add_sale (db : DB) (sdate mid bid : String) (q d : Int)
    (fl : Bool) (h1 : StocksNonneg db) (h2 : BidsNodup db) :
    StocksNonneg (add_sale db sdate mid bid q d fl).1 := by
  rcases add_sale_cases db sdate mid bid q d fl with hc | hc
  · rw [hc]; exact h1
  · obtain ⟨-, -, -, -, book, hbook, hq, hd, hstock, heq⟩ :=
      add_sale_true_spec db sdate mid bid q d fl hc
    rw [heq]
    intro b hb
    obtain ⟨b0, hb0, rfl⟩ := List.mem_map.mp hb
    by_cases hbid : b0.bid = bid
    · have hb0book : b0 = book := find?_bid_unique db.books bid book b0 h2 hbook hb0 hbid
      subst hb0book
      rw [if_pos hbid]
      show 0 ≤ b0.bstock - q
      omega
    · rw [if_neg hbid]
      exact h1 b0 hb0

theorem bidsNodup_add_sale (db : DB) (sdate mid bid : String) (q d : Int)
    (fl : Bool) (h2 : BidsNodup db) :
    BidsNodup (add_sale db sdate mid bid q d fl).1 := by
  rcases add_sale_cases db sdate mid bid q d fl with hc | hc
  · rw [hc]; exact h2
  · obtain ⟨-, -, -, -, book, hbook, hq, hd, hstock, heq⟩ :=
      add_sale_true_spec db sdate mid bid q d fl hc
    rw [heq]
    show (List.map Book.bid (db.books.map _)).Nodup
    rw [List.map_map]
    have : db.books.map (Book.bid ∘ fun b =>
        if b.bid = bid then { b with bstock := b.bstock - q } else b) =
        db.books.map Book.bid := by
      apply List.map_congr_left
      intro b hb
      by_cases hbid : b.bid = bid <;> simp [hbid]
    rw [this]
    exact h2

theorem sidInv_add_sale (db : DB) (sdate mid bid : String) (q d : Int)
    (fl : Bool) (h : SidInv db) :
    SidInv (add_sale db sdate mid bid q d fl).1 := by
  rcases add_sale_cases db sdate mid bid q d fl with hc | hc
  · rw [hc]; exact h
  · obtain ⟨-, -, -, -, book, hbook, hq, hd, hstock, heq⟩ :=
      add_sale_true_spec db sdate mid bid q d fl hc
    rw [heq]
    intro s hs
    rcases List.mem_append.mp hs with hs | hs
    · have := h s hs
      show s.sid < db.nextSid + 1
      omega
    · rw [List.mem_singleton] at hs
      subst hs
      show db.nextSid < db.nextSid + 1
      omega

theorem nextSid_add_sale (db : DB) (sdate mid bid : String) (q d : Int)
    (fl : Bool) : db.nextSid ≤ (add_sale db sdate mid bid q d fl).1.nextSid := by
  rcases add_sale_cases db sdate mid bid q d fl with hc | hc
  · rw [hc]
  · obtain ⟨-, -, -, -, book, hbook, hq, hd, hstock, heq⟩ :=
      add_sale_true_spec db sdate mid bid q d fl hc
    rw [heq]
    exact Nat.le_succ _

theorem nextSid_mono_applyOp (db : DB) (op : Op) :
    db.nextSid ≤ (applyOp db op).nextSid := by
  cases op with
  | sale sdate mid bid q d fl => exact nextSid_add_sale db sdate mid bid q d fl
  | update idx d =>
    rcases applyOp_update_shape db idx d with hc | ⟨sid2, t, hc⟩ <;> rw [hc]
  | delete idx =>
    rcases applyOp_delete_shape db idx with hc | ⟨sid2, hc⟩ <;> rw [hc]
  | init =>
    have h1 := (foldl_insertOrIgnoreMember_frame seedMembers db).2.2
    have h2 := (foldl_insertOrIgnoreBook_frame seedBooks
      (seedMembers.foldl insertOrIgnoreMember db)).2.2
    have h3 := nextSid_le_foldl_insertOrIgnoreSale seedSales
      (seedBooks.foldl insertOrIgnoreBook
        (seedMembers.foldl insertOrIgnoreMember db))
    show db.nextSid ≤ (seedSales.foldl insertOrIgnoreSale
      (seedBooks.foldl insertOrIgnoreBook
        (seedMembers.foldl insertOrIgnoreMember db))).nextSid
    omega

theorem sidInv_applyOp (db : DB) (op : Op) (h : SidInv db) :
    SidInv (applyOp db op) := by
  cases op with
  | sale sdate mid bid q d fl => exact sidInv_add_sale db sdate mid bid q d fl h
  | update idx d =>
    rcases applyOp_update_shape db idx d with hc | ⟨sid2, t, hc⟩ <;> rw [hc]
    · exact h
    · intro s hs
      obtain ⟨s0, hs0, rfl⟩ := List.mem_map.mp hs
      have := h s0 hs0
      by_cases hsid : s0.sid = sid2 <;> simp [hsid] <;> omega
  | delete idx =>
    rcases applyOp_delete_shape db idx with hc | ⟨sid2, hc⟩ <;> rw [hc]
    · exact h
    · intro s hs
      exact h s (List.mem_of_mem_filter hs)
  | init =>
    show SidInv (initialize_db db)
    unfold initialize_db
    apply sidInv_foldl_insertOrIgnoreSale
    intro s hs
    have h1 := foldl_insertOrIgnoreMember_frame seedMembers db
    have h2 := foldl_insertOrIgnoreBook_frame seedBooks
      (seedMembers.foldl insertOrIgnoreMember db)
    rw [h2.2.1, h1.2.1] at hs
    rw [h2.2.2, h1.2.2]
    exact h s hs

theorem inv_applyOp (db : DB) (op : Op)
    (h1 : StocksNonneg db) (h2 : BidsNodup db) :
    StocksNonneg (applyOp db op) ∧ BidsNodup (applyOp db op) := by
  cases op with
  | sale sdate mid bid q d fl =>
    exact ⟨stocksNonneg_add_sale db sdate mid bid q d fl h1 h2,
      bidsNodup_add_sale db sdate mid bid q d fl h2⟩
  | update idx d =>
    rcases applyOp_update_shape db idx d with hc | ⟨sid2, t, hc⟩ <;> rw [hc]
    · exact ⟨h1, h2⟩
    · exact ⟨h1, h2⟩
  | delete idx =>
    rcases applyOp_delete_shape db idx with hc | ⟨sid2, hc⟩ <;> rw [hc]
    · exact ⟨h1, h2⟩
    · exact ⟨h1, h2⟩
  | init =>
    show StocksNonneg (initialize_db db) ∧ BidsNodup (initialize_db db)
    unfold initialize_db
    have hm := foldl_insertOrIgnoreMember_frame seedMembers db
    set db1 := seedMembers.foldl insertOrIgnoreMember db with hdb1
    have hb1 : StocksNonneg db1 := by
      intro b hb
      rw [hm.1] at hb
      exact h1 b hb
    have hb2 : BidsNodup db1 := by
      show (db1.books.map Book.bid).Nodup
      rw [hm.1]
      exact h2
    set db2 := seedBooks.foldl insertOrIgnoreBook db1 with hdb2
    have hc1 : StocksNonneg db2 :=
      stocksNonneg_foldl_insertOrIgnoreBook seedBooks db1 (by decide) hb1
    have hc2 : BidsNodup db2 := bidsNodup_foldl_insertOrIgnoreBook seedBooks db1 hb2
    have hs := foldl_insertOrIgnoreSale_frame seedSales db2
    constructor
    · intro b hb
      rw [hs.2] at hb
      exact hc1 b hb
    · show ((seedSales.foldl insertOrIgnoreSale db2).books.map Book.bid).Nodup
      rw [hs.2]
      exact hc2

/-! ### Executions and traces -/

theorem sidInv_exec (db : DB) (ops : List Op) (h : SidInv db) :
    SidInv (exec db ops) := by
  induction ops generalizing db with
  | nil => exact h
  | cons op ops ih => exact ih _ (sidInv_applyOp db op h)

theorem nextSid_mono_exec (db : DB) (ops : List Op) :
    db.nextSid ≤ (exec db ops).nextSid := by
  induction ops generalizing db with
  | nil => exact le_rfl
  | cons op ops ih =>
    exact (nextSid_mono_applyOp db op).trans (ih (applyOp db op))

theorem inv_exec (db : DB) (ops : List Op)
    (h1 : StocksNonneg db) (h2 : BidsNodup db) :
    StocksNonneg (exec db ops) ∧ BidsNodup (exec db ops) := by
  induction ops generalizing db with
  | nil => exact ⟨h1, h2⟩
  | cons op ops ih =>
    obtain ⟨g1, g2⟩ := inv_applyOp db op h1 h2
    exact ih _ g1 g2

theorem traceStates_sidInv (db : DB) (ops : List Op) (h : SidInv db) :
    ∀ dbm ∈ traceStates db ops, SidInv dbm := by
  induction ops generalizing db with
  | nil =>
    intro dbm hm
    rw [show traceStates db [] = [db] from rfl, List.mem_singleton] at hm
    subst hm
    exact h
  | cons op ops ih =>
    intro dbm hm
    rw [show traceStates db (op :: ops) = db :: traceStates (applyOp db op) ops
      from rfl, List.mem_cons] at hm
    rcases hm with rfl | hm
    · exact h
    · exact ih _ (sidInv_applyOp db op h) dbm hm

theorem traceStates_nextSid_le (db : DB) (ops : List Op) :
    ∀ dbm ∈ traceStates db ops, dbm.nextSid ≤ (exec db ops).nextSid := by
  induction ops generalizing db with
  | nil =>
    intro dbm hm
    rw [show traceStates db [] = [db] from rfl, List.mem_singleton] at hm
    subst hm
    exact le_rfl
  | cons op ops ih =>
    intro dbm hm
    rw [show traceStates db (op :: ops) = db :: traceStates (applyOp db op) ops
      from rfl, List.mem_cons] at hm
    rcases hm with rfl | hm
    · exact (nextSid_mono_applyOp dbm op).trans (nextSid_mono_exec _ ops)
    · exact ih (applyOp db op) dbm hm

/-! ### Selection from the sorted sale list -/

theorem mem_insertBySid (a s : Sale) (l : List Sale) :
    a ∈ insertBySid s l ↔ a = s ∨ a ∈ l := by
  induction l with
  | nil => simp [insertBySid]
  | cons t ts ih =>
    unfold insertBySid
    split
    · simp [List.mem_cons]
    · rw [List.mem_cons, ih, List.mem_cons]
      tauto

theorem mem_sortBySid (a : Sale) (l : List Sale) :
    a ∈ sortBySid l ↔ a ∈ l := by
  induction l with
  | nil => simp [sortBySid]
  | cons t ts ih =>
    show a ∈ insertBySid t (sortBySid ts) ↔ _
    rw [mem_insertBySid, ih, List.mem_cons]

theorem selectSale_some_mem (l : List Sale) (idx : Int) (s : Sale)
    (h : selectSale l idx = some s) : s ∈ l := by
  unfold selectSale at h
  split at h
  · cases h
  · obtain ⟨hlt, hget⟩ := List.getElem?_eq_some.mp h
    rw [← hget]
    exact List.getElem_mem hlt

/-! ### Removing one sale among pairwise-distinct sids -/

theorem length_filter_ne_sid (l : List Sale) (x : Sale) (hx : x ∈ l)
    (hnd : (l.map Sale.sid).Nodup) :
    (l.filter (fun t => t.sid ≠ x.sid)).length + 1 = l.length := by
  induction l with
  | nil => cases hx
  | cons a l ih =>
    rw [List.map_cons, List.nodup_cons] at hnd
    rcases List.mem_cons.mp hx with hxa | hx
    · subst hxa
      have hkeep : l.filter (fun t => t.sid ≠ x.sid) = l := by
        rw [List.filter_eq_self]
        intro t ht
        simp only [ne_eq, decide_eq_true_eq]
        intro hts
        exact hnd.1 (List.mem_map.mpr ⟨t, ht, hts.symm ▸ rfl⟩)
      rw [List.filter_cons, if_neg (by simp), hkeep, List.length_cons]
    · have ha : a.sid ≠ x.sid := by
        intro hax
        exact hnd.1 (List.mem_map.mpr ⟨x, hx, hax.symm⟩)
      rw [List.filter_cons, if_pos (by simp [ha])]
      rw [List.length_cons, ih hx hnd.2, List.length_cons]

/-! ### Idempotence of the seeding -/

theorem members_any_mono (db : DB) (x : Member) (p : Member → Bool)
    (h : db.members.any p = true) :
    (insertOrIgnoreMember db x).members.any p = true := by
  unfold insertOrIgnoreMember
  split
  · exact h
  · simp only [List.any_append, h, Bool.true_or]

theorem members_any_self (db : DB) (x : Member) :
    (insertOrIgnoreMember db x).members.any (fun y => y.mid = x.mid) = true := by
  unfold insertOrIgnoreMember
  split
  next h => exact h
  · simp [List.any_append]

theorem foldl_member_any_mono (l : List Member) (db : DB) (p : Member → Bool)
    (h : db.members.any p = true) :
    (l.foldl insertOrIgnoreMember db).members.any p = true := by
  induction l generalizing db with
  | nil => exact h
  | cons a l ih => exact ih _ (members_any_mono db a p h)

theorem foldl_member_any (l : List Member) (db : DB) (m : Member) (hm : m ∈ l) :
    (l.foldl insertOrIgnoreMember db).members.any (fun y => y.mid = m.mid)
      = true := by
  induction l generalizing db with
  | nil => cases hm
  | cons a l ih =>
    rcases List.mem_cons.mp hm with rfl | hm
    · exact foldl_member_any_mono l _ _ (members_any_self db m)
    · exact ih _ hm

theorem foldl_member_id (l : List Member) (db : DB)
    (h : ∀ m ∈ l, db.members.any (fun y => y.mid = m.mid) = true) :
    l.foldl insertOrIgnoreMember db = db := by
  induction l with
  | nil => rfl
  | cons a l ih =>
    have ha : insertOrIgnoreMember db a = db := by
      unfold insertOrIgnoreMember
      rw [if_pos (h a (List.mem_cons_self a l))]
    rw [List.foldl_cons, ha]
    exact ih (fun m hm => h m (List.mem_cons_of_mem a hm))

theorem books_any_mono (db : DB) (x : Book) (p : Book → Bool)
    (h : db.books.any p = true) :
    (insertOrIgnoreBook db x).books.any p = true := by
  unfold insertOrIgnoreBook
  split
  · exact h
  · simp only [List.any_append, h, Bool.true_or]

theorem books_any_self (db : DB) (x : Book) :
    (insertOrIgnoreBook db x).books.any (fun y => y.bid = x.bid) = true := by
  unfold insertOrIgnoreBook
  split
  next h => exact h
  · simp [List.any_append]

theorem foldl_book_any_mono (l : List Book) (db : DB) (p : Book → Bool)
    (h : db.books.any p = true) :
    (l.foldl insertOrIgnoreBook db).books.any p = true := by
  induction l generalizing db with
  | nil => exact h
  | cons a l ih => exact ih _ (books_any_mono db a p h)

theorem foldl_book_any (l : List Book) (db : DB) (b : Book) (hb : b ∈ l) :
    (l.foldl insertOrIgnoreBook db).books.any (fun y => y.bid = b.bid)
      = true := by
  induction l generalizing db with
  | nil => cases hb
  | cons a l ih =>
    rcases List.mem_cons.mp hb with rfl | hb
    · exact foldl_book_any_mono l _ _ (books_any_self db b)
    · exact ih _ hb

theorem foldl_book_id (l : List Book) (db : DB)
    (h : ∀ b ∈ l, db.books.any (fun y => y.bid = b.bid) = true) :
    l.foldl insertOrIgnoreBook db = db := by
  induction l with
  | nil => rfl
  | cons a l ih =>
    have ha : insertOrIgnoreBook db a = db := by
      unfold insertOrIgnoreBook
      rw [if_pos (h a (List.mem_cons_self a l))]
    rw [List.foldl_cons, ha]
    exact ih (fun b hb => h b (List.mem_cons_of_mem a hb))

theorem sales_any_mono (db : DB) (x : Sale) (p : Sale → Bool)
    (h : db.sales.any p = true) :
    (insertOrIgnoreSale db x).sales.any p = true := by
  unfold insertOrIgnoreSale
  split
  · exact h
  · simp only [List.any_append, h, Bool.true_or]

theorem sales_any_self (db : DB) (x : Sale) :
    (insertOrIgnoreSale db x).sales.any (fun y => y.sid = x.sid) = true := by
  unfold insertOrIgnoreSale
  split
  next h => exact h
  · simp [List.any_append]

theorem foldl_sale_any_mono (l : List Sale) (db : DB) (p : Sale → Bool)
    (h : db.sales.any p = true) :
    (l.foldl insertOrIgnoreSale db).sales.any p = true := by
  induction l generalizing db with
  | nil => exact h
  | cons a l ih => exact ih _ (sales_any_mono db a p h)

theorem foldl_sale_any (l : List Sale) (db : DB) (x : Sale) (hx : x ∈ l) :
    (l.foldl insertOrIgnoreSale db).sales.any (fun y => y.sid = x.sid)
      = true := by
  induction l generalizing db with
  | nil => cases hx
  | cons a l ih =>
    rcases List.mem_cons.mp hx with rfl | hx
    · exact foldl_sale_any_mono l _ _ (sales_any_self db x)
    · exact ih _ hx

theorem foldl_sale_id (l : List Sale) (db : DB)
    (h : ∀ x ∈ l, db.sales.any (fun y => y.sid = x.sid) = true) :
    l.foldl insertOrIgnoreSale db = db := by
  induction l with
  | nil => rfl
  | cons a l ih =>
    have ha : insertOrIgnoreSale db a = db := by
      unfold insertOrIgnoreSale
      rw [if_pos (h a (List.mem_cons_self a l))]
    rw [List.foldl_cons, ha]
    exact ih (fun x hx => h x (List.mem_cons_of_mem a hx))

theorem initialize_db_idempotent (db : DB) :
    initialize_db (initialize_db db) = initialize_db db := by
  set d0 := initialize_db db with hd0
  have hmembers : d0.members =
      (seedMembers.foldl insertOrIgnoreMember db).members := by
    rw [hd0]
    show (seedSales.foldl insertOrIgnoreSale
      (seedBooks.foldl insertOrIgnoreBook
        (seedMembers.foldl insertOrIgnoreMember db))).members = _
    rw [(foldl_insertOrIgnoreSale_frame _ _).1,
      (foldl_insertOrIgnoreBook_frame _ _).1]
  have hbooks : d0.books =
      (seedBooks.foldl insertOrIgnoreBook
        (seedMembers.foldl insertOrIgnoreMember db)).books := by
    rw [hd0]
    show (seedSales.foldl insertOrIgnoreSale
      (seedBooks.foldl insertOrIgnoreBook
        (seedMembers.foldl insertOrIgnoreMember db))).books = _
    rw [(foldl_insertOrIgnoreSale_frame _ _).2]
  have hm : seedMembers.foldl insertOrIgnoreMember d0 = d0 := by
    apply foldl_member_id
    intro m hm
    rw [hmembers]
    exact foldl_member_any seedMembers db m hm
  have hb : seedBooks.foldl insertOrIgnoreBook d0 = d0 := by
    apply foldl_book_id
    intro b hb
    rw [hbooks]
    exact foldl_book_any seedBooks _ b hb
  have hs : seedSales.foldl insertOrIgnoreSale d0 = d0 := by
    apply foldl_sale_id
    intro x hx
    rw [hd0]
    show (seedSales.foldl insertOrIgnoreSale
      (seedBooks.foldl insertOrIgnoreBook
        (seedMembers.foldl insertOrIgnoreMember db))).sales.any _ = true
    exact foldl_sale_any seedSales _ x hx
  show seedSales.foldl insertOrIgnoreSale
    (seedBooks.foldl insertOrIgnoreBook
      (seedMembers.foldl insertOrIgnoreMember d0)) = d0
  rw [hm, hb, hs]

/-! ### Claim theorems -/

/-- Claim C1: for every database state and every input that passes all six
validation rules (valid date syntax, existing member, existing book,
positive quantity, non-negative discount, quantity within stock),
`add_sale` returns success, appends exactly one new sale row whose total is
`price*qty - discount`, and the referenced book's stock decreases by
exactly `qty`.  (The claim's seeded scenario is the witness theorem.) -/
theorem C1_recordSale_success (db : DB) (sdate mid bid : String) (q d : Int)
    (book : Book)
    (hlen : sdate.length = 10) (hdash : dashCount sdate = 2)
    (hmem : (findMember db mid).isSome) (hbook : findBook db bid = some book)
    (hq : 0 < q) (hd : 0 ≤ d) (hstock : q ≤ book.bstock) :
    (add_sale db sdate mid bid q d false).2.1 = true ∧
    (add_sale db sdate mid bid q d false).1.sales = db.sales ++
      [{ sid := db.nextSid, sdate := sdate, mid := mid, bid := bid,
         sqty := q, sdiscount := d, stotal := book.bprice * q - d }] ∧
    findBook (add_sale db sdate mid bid q d false).1 bid =
      some { book with bstock := book.bstock - q } := by
  rw [add_sale_success_eq db sdate mid bid q d book hlen hdash hmem hbook hq hd
    hstock]
  exact ⟨rfl, rfl, find?_bid_map_decrement db.books bid q book hbook⟩

/-- Witness for C1, the spec's seeded scenario: with B001 at price 600 and
stock 50, recording a sale of 2 copies with discount 100 succeeds, stores
total 1100, and leaves B001 at stock 48. -/
theorem C1_recordSale_success_witness :
    (add_sale (initialize_db emptyDB) "2024-02-01" "M001" "B001" 2 100
      false).2.1 = true ∧
    (add_sale (initialize_db emptyDB) "2024-02-01" "M001" "B001" 2 100
      false).1.sales = (initialize_db emptyDB).sales ++
      [{ sid := 5, sdate := "2024-02-01", mid := "M001", bid := "B001",
         sqty := 2, sdiscount := 100, stotal := 1100 }] ∧
    findBook (add_sale (initialize_db emptyDB) "2024-02-01" "M001" "B001" 2 100
      false).1 "B001" =
      some { bid := "B001", btitle := "Python Programming", bprice := 600,
             bstock := 48 } := by
  have h := C1_recordSale_success (initialize_db emptyDB) "2024-02-01" "M001"
    "B001" 2 100
    { bid := "B001", btitle := "Python Programming", bprice := 600, bstock := 50 }
    (by decide) (by decide) (by decide) (by decide) (by decide) (by decide)
    (by decide)
  refine ⟨h.1, ?_, ?_⟩
  · rw [h.2.1]
    decide
  · rw [h.2.2]
    decide

/-- Claim C2: whenever `add_sale` reports failure — from any of the six
validation rules or from a storage-level failure during the transaction
(modelled by the `storageFails` flag, whose branch performs the rollback) —
the returned state is the input state: no sale row is created and no stock
changes. -/
theorem C2_failure_no_mutation (db : DB) (sdate mid bid : String) (q d : Int)
    (fl : Bool) (h : (add_sale db sdate mid bid q d fl).2.1 = false) :
    (add_sale db sdate mid bid q d fl).1 = db := by
  rcases add_sale_cases db sdate mid bid q d fl with hc | hc
  · exact hc
  · rw [hc] at h
    cases h

/-- Witness for C2 at two concrete failures: insufficient stock, and a
storage failure on otherwise-valid input; both leave the seeded state
unchanged. -/
theorem C2_failure_no_mutation_witness :
    ((add_sale (initialize_db emptyDB) "2024-02-01" "M001" "B001" 1000 0
      false).2.1 = false ∧
     (add_sale (initialize_db emptyDB) "2024-02-01" "M001" "B001" 1000 0
      false).1 = initialize_db emptyDB) ∧
    ((add_sale (initialize_db emptyDB) "2024-02-01" "M001" "B001" 2 100
      true).2.1 = false ∧
     (add_sale (initialize_db emptyDB) "2024-02-01" "M001" "B001" 2 100
      true).1 = initialize_db emptyDB) :=
  ⟨⟨by decide, C2_failure_no_mutation _ _ _ _ _ _ _ (by decide)⟩,
   ⟨by decide, C2_failure_no_mutation _ _ _ _ _ _ _ (by decide)⟩⟩

/-- Claim C6: the total is `price*qty - discount` in exact integer
arithmetic with no clamp: when the discount exceeds `price*qty` (and all
validation rules pass), the sale still succeeds and the stored total is
negative, exactly `price*qty - discount`. -/
theorem C6_negative_total (db : DB) (sdate mid bid : String) (q d : Int)
    (book : Book)
    (hlen : sdate.length = 10) (hdash : dashCount sdate = 2)
    (hmem : (findMember db mid).isSome) (hbook : findBook db bid = some book)
    (hq : 0 < q) (hd : 0 ≤ d) (hstock : q ≤ book.bstock)
    (hover : book.bprice * q < d) :
    (add_sale db sdate mid bid q d false).2.1 = true ∧
    (add_sale db sdate mid bid q d false).1.sales = db.sales ++
      [{ sid := db.nextSid, sdate := sdate, mid := mid, bid := bid,
         sqty := q, sdiscount := d, stotal := book.bprice * q - d }] ∧
    book.bprice * q - d < 0 := by
  rw [add_sale_success_eq db sdate mid bid q d book hlen hdash hmem hbook hq hd
    hstock]
  exact ⟨rfl, rfl, by omega⟩

/-- Witness for C6: one copy of B001 (price 600) with discount 700 succeeds
and stores total -100. -/
theorem C6_negative_total_witness :
    (add_sale (initialize_db emptyDB) "2024-02-01" "M001" "B001" 1 700
      false).2.1 = true ∧
    (add_sale (initialize_db emptyDB) "2024-02-01" "M001" "B001" 1 700
      false).1.sales = (initialize_db emptyDB).sales ++
      [{ sid := 5, sdate := "2024-02-01", mid := "M001", bid := "B001",
         sqty := 1, sdiscount := 700, stotal := -100 }] ∧
    (-100 : Int) < 0 := by
  have h := C6_negative_total (initialize_db emptyDB) "2024-02-01" "M001"
    "B001" 1 700
    { bid := "B001", btitle := "Python Programming", bprice := 600, bstock := 50 }
    (by decide) (by decide) (by decide) (by decide) (by decide) (by decide)
    (by decide) (by decide)
  refine ⟨h.1, ?_, by decide⟩
  rw [h.2.1]
  decide

/-- Claim C3: every book's stock is non-negative in every state reachable
from the bootstrap state by any sequence of the public operations:
`add_sale` only decrements stock after checking `qty <= stock`, and no
other operation touches stock. -/
theorem C3_stock_nonneg (ops : List Op) (b : Book)
    (hb : b ∈ (exec (initialize_db emptyDB) ops).books) : 0 ≤ b.bstock := by
  have h1 : StocksNonneg (initialize_db emptyDB) := by decide
  have h2 : BidsNodup (initialize_db emptyDB) := by decide
  exact (inv_exec (initialize_db emptyDB) ops h1 h2).1 b hb

/-- Witness for C3: after one successful sale of 2 copies, B001 sits at
stock 48, which is non-negative. -/
theorem C3_stock_nonneg_witness :
    ({ bid := "B001", btitle := "Python Programming", bprice := 600,
       bstock := 48 } : Book) ∈
      (exec (initialize_db emptyDB)
        [Op.sale "2024-02-01" "M001" "B001" 2 100 false]).books ∧
    (0 : Int) ≤ 48 :=
  ⟨by decide,
   C3_stock_nonneg [Op.sale "2024-02-01" "M001" "B001" 2 100 false]
     { bid := "B001", btitle := "Python Programming", bprice := 600,
       bstock := 48 } (by decide)⟩

/-- Claim C4: the validation chain evaluates its checks in the fixed order
(1) date syntax, (2) member existence, (3) book existence, (4) quantity,
(5) discount, (6) stock, short-circuiting at the first failure with that
rule's message, and the six failure messages are pairwise distinct. -/
theorem C4_validation_order (db : DB) (sdate mid bid : String) (q d : Int)
    (fl : Bool) :
    (¬(sdate.length = 10 ∧ dashCount sdate = 2) →
       add_sale db sdate mid bid q d fl = (db, false, msgDateErr)) ∧
    (sdate.length = 10 → dashCount sdate = 2 → findMember db mid = none →
       add_sale db sdate mid bid q d fl = (db, false, msgMemberErr)) ∧
    (sdate.length = 10 → dashCount sdate = 2 → (findMember db mid).isSome →
       findBook db bid = none →
       add_sale db sdate mid bid q d fl = (db, false, msgBookErr)) ∧
    (∀ book : Book, sdate.length = 10 → dashCount sdate = 2 →
       (findMember db mid).isSome → findBook db bid = some book → q ≤ 0 →
       add_sale db sdate mid bid q d fl = (db, false, msgQtyErr)) ∧
    (∀ book : Book, sdate.length = 10 → dashCount sdate = 2 →
       (findMember db mid).isSome → findBook db bid = some book → 0 < q →
       d < 0 →
       add_sale db sdate mid bid q d fl = (db, false, msgDiscountErr)) ∧
    (∀ book : Book, sdate.length = 10 → dashCount sdate = 2 →
       (findMember db mid).isSome → findBook db bid = some book → 0 < q →
       0 ≤ d → book.bstock < q →
       add_sale db sdate mid bid q d fl = (db, false, msgStockErr book.bstock)) ∧
    ([msgDateErr, msgMemberErr, msgBookErr, msgQtyErr,
        msgDiscountErr].Pairwise (fun a b => a ≠ b) ∧
     ∀ st : Int, msgStockErr st ∉
       [msgDateErr, msgMemberErr, msgBookErr, msgQtyErr, msgDiscountErr]) := by
  refine ⟨add_sale_date_fail db sdate mid bid q d fl,
    add_sale_member_fail db sdate mid bid q d fl,
    add_sale_book_fail db sdate mid bid q d fl,
    fun book => add_sale_qty_fail db sdate mid bid q d fl book,
    fun book => add_sale_discount_fail db sdate mid bid q d fl book,
    fun book => add_sale_stock_fail db sdate mid bid q d fl book,
    by decide, ?_⟩
  intro st hm
  simp only [List.mem_cons, List.not_mem_nil, or_false] at hm
  rcases hm with h | h | h | h | h
  · exact msgStockErr_ne_const st msgDateErr (by decide) h
  · exact msgStockErr_ne_const st msgMemberErr (by decide) h
  · exact msgStockErr_ne_const st msgBookErr (by decide) h
  · exact msgStockErr_ne_const st msgQtyErr (by decide) h
  · exact msgStockErr_ne_const st msgDiscountErr (by decide) h

/-- Witness for C4 at the claim's example: an unknown member together with a
non-positive quantity yields the member-existence failure, not the
quantity failure. -/
theorem C4_validation_order_witness :
    add_sale (initialize_db emptyDB) "2024-02-01" "M999" "B001" (-5) 0 false =
      (initialize_db emptyDB, false, msgMemberErr) :=
  (C4_validation_order (initialize_db emptyDB) "2024-02-01" "M999" "B001"
    (-5) 0 false).2.1 (by decide) (by decide) (by decide)

/-- Claim C5: the date check accepts a string iff its length is exactly 10
and it contains exactly two dashes — no calendar validity check — and
`add_sale` returns the date-format failure (with the state unchanged)
exactly when that syntactic test fails, before any lookup matters. -/
theorem C5_date_check (db : DB) (sdate mid bid : String) (q d : Int)
    (fl : Bool) :
    add_sale db sdate mid bid q d fl = (db, false, msgDateErr) ↔
      ¬(sdate.length = 10 ∧ dashCount sdate = 2) := by
  constructor
  · intro h hdate
    obtain ⟨hlen, hdash⟩ := hdate
    rcases hm : findMember db mid with _ | m
    · have h2 := (add_sale_member_fail db sdate mid bid q d fl hlen hdash
        hm).symm.trans h
      have h3 : msgMemberErr = msgDateErr := congrArg (fun p => p.2.2) h2
      exact absurd h3 (by decide)
    · have hmem : (findMember db mid).isSome := by rw [hm]; rfl
      rcases hb : findBook db bid with _ | book
      · have h2 := (add_sale_book_fail db sdate mid bid q d fl hlen hdash
          hmem hb).symm.trans h
        have h3 : msgBookErr = msgDateErr := congrArg (fun p => p.2.2) h2
        exact absurd h3 (by decide)
      · by_cases hq : q ≤ 0
        · have h2 := (add_sale_qty_fail db sdate mid bid q d fl book hlen
            hdash hmem hb hq).symm.trans h
          have h3 : msgQtyErr = msgDateErr := congrArg (fun p => p.2.2) h2
          exact absurd h3 (by decide)
        · by_cases hd : d < 0
          · have h2 := (add_sale_discount_fail db sdate mid bid q d fl book
              hlen hdash hmem hb (by omega) hd).symm.trans h
            have h3 : msgDiscountErr = msgDateErr := congrArg (fun p => p.2.2) h2
            exact absurd h3 (by decide)
          · by_cases hs : book.bstock < q
            · have h2 := (add_sale_stock_fail db sdate mid bid q d fl book
                hlen hdash hmem hb (by omega) (by omega) hs).symm.trans h
              have h3 : msgStockErr book.bstock = msgDateErr :=
                congrArg (fun p => p.2.2) h2
              exact msgStockErr_ne_const book.bstock msgDateErr (by decide) h3
            · cases fl with
              | true =>
                have h2 := (add_sale_storage_fail db sdate mid bid q d book
                  hlen hdash hmem hb (by omega) (by omega) (by omega)).symm.trans h
                have h3 : msgDbErr = msgDateErr := congrArg (fun p => p.2.2) h2
                exact absurd h3 (by decide)
              | false =>
                have h2 := (add_sale_success_eq db sdate mid bid q d book
                  hlen hdash hmem hb (by omega) (by omega) (by omega)).symm.trans h
                have h3 : true = false := congrArg (fun p => p.2.1) h2
                exact absurd h3 (by decide)
  · exact add_sale_date_fail db sdate mid bid q d fl

/-- Witness for C5: "bad-date" is rejected with the date-format message and
no state change, while the calendar-invalid "2024-99-99" passes the date
check (it does not produce the date-format failure). -/
theorem C5_date_check_witness :
    add_sale (initialize_db emptyDB) "bad-date" "M001" "B001" 1 0 false =
      (initialize_db emptyDB, false, msgDateErr) ∧
    add_sale (initialize_db emptyDB) "2024-99-99" "M001" "B001" 1 0 false ≠
      (initialize_db emptyDB, false, msgDateErr) :=
  ⟨(C5_date_check (initialize_db emptyDB) "bad-date" "M001" "B001" 1 0
      false).mpr (by decide),
   fun h => (C5_date_check (initialize_db emptyDB) "2024-99-99" "M001" "B001"
      1 0 false).mp h (by decide)⟩

/-- Claim C7: schema bootstrap is idempotent — re-running `initialize_db`
on a state it already produced changes nothing — and the bootstrap state
has exactly 3 members, 3 books, and the 4 seeded sales, with no duplicates
and no error. -/
theorem C7_initialize_idempotent :
    (∀ db : DB, initialize_db (initialize_db db) = initialize_db db) ∧
    (initialize_db emptyDB).members = seedMembers ∧
    (initialize_db emptyDB).books = seedBooks ∧
    (initialize_db emptyDB).sales = seedSales ∧
    (initialize_db emptyDB).members.length = 3 ∧
    (initialize_db emptyDB).books.length = 3 ∧
    (initialize_db emptyDB).sales.length = 4 :=
  ⟨initialize_db_idempotent, by decide, by decide, by decide, by decide,
   by decide, by decide⟩

/-- Claim C8: `update_sale`, given a selected sale and a new discount `d`,
rejects `d < 0` with a message and no mutation; otherwise it overwrites
exactly the discount and total of the selected row with
`total = price*qty - d` (qty re-fetched from the sale, price from its
book), leaving members, books (hence every stock), the counter, and all
rows with a different sid unchanged. -/
theorem C8_update_discount (db : DB) (idx d : Int) (sel sale : Sale)
    (book : Book)
    (hsel : selectSale (sortBySid db.sales) idx = some sel)
    (hsale : findSale db sel.sid = some sale)
    (hbook : findBook db sale.bid = some book) :
    (d < 0 → update_sale db idx d = some (db, msgDiscountErr)) ∧
    (0 ≤ d → ∃ db2 msg, update_sale db idx d = some (db2, msg) ∧
      db2.members = db.members ∧ db2.books = db.books ∧
      db2.nextSid = db.nextSid ∧
      db2.sales = db.sales.map (fun t =>
        if t.sid = sel.sid then
          { t with sdiscount := d, stotal := book.bprice * sale.sqty - d }
        else t)) := by
  constructor
  · intro hd
    unfold update_sale
    simp only [hsel]
    rw [if_pos hd]
  · intro hd
    have heq : update_sale db idx d = some
        ({ db with sales := db.sales.map (fun t =>
            if t.sid = sel.sid then
              { t with sdiscount := d, stotal := book.bprice * sale.sqty - d }
            else t) },
         msgUpdated sel.sid (book.bprice * sale.sqty - d)) := by
      unfold update_sale
      simp only [hsel, hsale, hbook]
      rw [if_neg (by omega)]
    exact ⟨_, _, heq, rfl, rfl, rfl, rfl⟩

/-- Witness for C8: on the seeded state, selecting the first listed sale
(sid 1, B001, qty 2) and setting discount 0 rewrites exactly that row to
total 1200, leaving members, books and the other sales unchanged. -/
theorem C8_update_discount_witness :
    ∃ db2 msg, update_sale (initialize_db emptyDB) 1 0 = some (db2, msg) ∧
      db2.members = (initialize_db emptyDB).members ∧
      db2.books = (initialize_db emptyDB).books ∧
      db2.nextSid = (initialize_db emptyDB).nextSid ∧
      db2.sales = (initialize_db emptyDB).sales.map (fun t =>
        if t.sid = 1 then { t with sdiscount := 0, stotal := 1200 } else t) := by
  obtain ⟨db2, msg, h1, h2, h3, h4, h5⟩ :=
    (C8_update_discount (initialize_db emptyDB) 1 0
      { sid := 1, sdate := "2024-01-15", mid := "M001", bid := "B001",
        sqty := 2, sdiscount := 100, stotal := 1100 }
      { sid := 1, sdate := "2024-01-15", mid := "M001", bid := "B001",
        sqty := 2, sdiscount := 100, stotal := 1100 }
      { bid := "B001", btitle := "Python Programming", bprice := 600,
        bstock := 50 }
      (by decide) (by decide) (by decide)).2 (by decide)
  refine ⟨db2, msg, h1, h2, h3, h4, ?_⟩
  rw [h5]
  decide

/-- Claim C9: `delete_sale`, given a validly selected sale, removes exactly
that one row and changes nothing else: members, books (no stock
restoration) and every other sale are identical before and after, and the
sale count drops by exactly one. -/
theorem C9_delete_frame (db : DB) (idx : Int) (sel : Sale)
    (hsel : selectSale (sortBySid db.sales) idx = some sel)
    (hnd : (db.sales.map Sale.sid).Nodup) :
    (delete_sale db idx).1.members = db.members ∧
    (delete_sale db idx).1.books = db.books ∧
    (delete_sale db idx).1.sales =
      db.sales.filter (fun t => t.sid ≠ sel.sid) ∧
    sel ∈ db.sales ∧
    sel ∉ (delete_sale db idx).1.sales ∧
    (∀ t ∈ db.sales, t ≠ sel → t ∈ (delete_sale db idx).1.sales) ∧
    (delete_sale db idx).1.sales.length + 1 = db.sales.length := by
  have hmem : sel ∈ db.sales :=
    (mem_sortBySid sel db.sales).mp (selectSale_some_mem _ idx sel hsel)
  have heq : delete_sale db idx =
      ({ db with sales := db.sales.filter (fun t => t.sid ≠ sel.sid) },
       msgDeleted sel.sid) := by
    unfold delete_sale
    simp only [hsel]
  rw [heq]
  refine ⟨rfl, rfl, rfl, hmem, ?_, ?_, ?_⟩
  · intro hc
    have := (List.mem_filter.mp hc).2
    simp at this
  · intro t ht htne
    refine List.mem_filter.mpr ⟨ht, ?_⟩
    simp only [ne_eq, decide_eq_true_eq]
    intro hts
    exact htne (List.inj_on_of_nodup_map hnd ht hmem hts)
  · exact length_filter_ne_sid db.sales sel hmem hnd

/-- Witness for C9: deleting the fourth listed sale (sid 4) from the seeded
state removes exactly that row; members, books and the other three sales
survive unchanged. -/
theorem C9_delete_frame_witness :
    (delete_sale (initialize_db emptyDB) 4).1.members =
      (initialize_db emptyDB).members ∧
    (delete_sale (initialize_db emptyDB) 4).1.books =
      (initialize_db emptyDB).books ∧
    (delete_sale (initialize_db emptyDB) 4).1.sales =
      (initialize_db emptyDB).sales.filter (fun t => t.sid ≠
        ({ sid := 4, sdate := "2024-01-18", mid := "M003", bid := "B001",
           sqty := 1, sdiscount := 0, stotal := 600 } : Sale).sid) ∧
    ({ sid := 4, sdate := "2024-01-18", mid := "M003", bid := "B001",
       sqty := 1, sdiscount := 0, stotal := 600 } : Sale) ∈
      (initialize_db emptyDB).sales ∧
    ({ sid := 4, sdate := "2024-01-18", mid := "M003", bid := "B001",
       sqty := 1, sdiscount := 0, stotal := 600 } : Sale) ∉
      (delete_sale (initialize_db emptyDB) 4).1.sales ∧
    (∀ t ∈ (initialize_db emptyDB).sales,
      t ≠ ({ sid := 4, sdate := "2024-01-18", mid := "M003", bid := "B001",
             sqty := 1, sdiscount := 0, stotal := 600 } : Sale) →
      t ∈ (delete_sale (initialize_db emptyDB) 4).1.sales) ∧
    (delete_sale (initialize_db emptyDB) 4).1.sales.length + 1 =
      (initialize_db emptyDB).sales.length :=
  C9_delete_frame (initialize_db emptyDB) 4
    { sid := 4, sdate := "2024-01-18", mid := "M003", bid := "B001",
      sqty := 1, sdiscount := 0, stotal := 600 }
    (by decide) (by decide)

/-- Claim C10: sale identifiers are never reused and are strictly
increasing.  From any state whose sids sit below the AUTOINCREMENT counter
(the bootstrap state does, and every operation preserves this), after any
sequence of operations a successful `add_sale` appends one sale carrying
the current counter value as sid, and that sid is strictly greater than
every sid present in every state visited along the trace — including sids
of sales deleted meanwhile, so a deleted sid never reappears. -/
theorem C10_sid_fresh (db : DB) (ops : List Op) (hInv : SidInv db)
    (sdate mid bid : String) (q d : Int) (fl : Bool)
    (hok : (add_sale (exec db ops) sdate mid bid q d fl).2.1 = true) :
    ∃ n : Sale,
      (add_sale (exec db ops) sdate mid bid q d fl).1.sales =
        (exec db ops).sales ++ [n] ∧
      n.sid = (exec db ops).nextSid ∧
      (∀ dbm ∈ traceStates db ops, ∀ s ∈ dbm.sales, s.sid < n.sid) := by
  obtain ⟨-, -, -, -, book, hbook, hq, hd, hstock, heq⟩ :=
    add_sale_true_spec (exec db ops) sdate mid bid q d fl hok
  refine ⟨{ sid := (exec db ops).nextSid, sdate := sdate, mid := mid,
            bid := bid, sqty := q, sdiscount := d,
            stotal := book.bprice * q - d }, ?_, rfl, ?_⟩
  · rw [heq]
  · intro dbm hdbm s hs
    have h1 := traceStates_sidInv db ops hInv dbm hdbm s hs
    have h2 := traceStates_nextSid_le db ops dbm hdbm
    show s.sid < (exec db ops).nextSid
    omega

/-- Witness for C10: starting from the bootstrap state, deleting the sale
with sid 4 and then recording a new sale assigns sid 5 — strictly above
every sid ever seen, including the deleted 4. -/
theorem C10_sid_fresh_witness :
    SidInv (initialize_db emptyDB) ∧
    (∃ n : Sale,
      (add_sale (exec (initialize_db emptyDB) [Op.delete 4]) "2024-02-01"
        "M001" "B001" 2 100 false).1.sales =
        (exec (initialize_db emptyDB) [Op.delete 4]).sales ++ [n] ∧
      n.sid = (exec (initialize_db emptyDB) [Op.delete 4]).nextSid ∧
      (∀ dbm ∈ traceStates (initialize_db emptyDB) [Op.delete 4],
        ∀ s ∈ dbm.sales, s.sid < n.sid)) :=
  ⟨by decide,
   C10_sid_fresh (initialize_db emptyDB) [Op.delete 4] (by decide)
     "2024-02-01" "M001" "B001" 2 100 false (by decide)⟩

end Bookstore
